import Mathlib

/-!
Verification development for the `tikz2svg.py` pandoc filter.

The filter walks a pandoc document tree, finds TikZ / CircuitikZ / picture
LaTeX environments inside figures, centered divs (and nowhere else), renders
each of them to a pair of theme images (black / white variants) under a
content-addressed, numbering-prefixed filename in the `media` directory, and
replaces the corresponding node by a MyST markdown raw block.

This file gives a shallow embedding of the filter:
* pure string helpers (`sanitize_number`, Python `strip` / `replace` behavior),
* the first-match environment extractor `extract_tikz` (the semantics of the
  non-greedy regex with a backreference on the environment name),
* the numbering state machine kept on the panflute `doc` object,
* the render cache (existence check on the target paths, external toolchain
  invocations modelled by an oracle `renderOk` on the synthesized document,
  because the external compiler and rasterizer are opaque subprocesses),
* the tree-rewrite action `tikz_filter` itself.

External-world state (the set of files present in the media directory and the
number of external render invocations performed so far) is threaded through
`FilterState` together with the numbering attributes that the Python code
keeps on `doc`.  `prepare` gives the state at the start of a run over a fresh
media directory.  The SHA1 content hash is kept opaque (a parameter
`sha1 : String → String`); no claim depends on actual digest values, only on
the hash being a function of the extracted source text.
-/

set_option linter.unusedVariables false
set_option maxRecDepth 8192

namespace TikzFilter

/-- Whitespace test used to model Python `str.strip` / `rstrip` / `lstrip`
(the ASCII whitespace characters). -/
def isPyWhitespace (c : Char) : Bool :=
  c = ' ' || c = '\n' || c = '\t' || c = '\r' || c = '\x0b' || c = '\x0c'

/-- Python `s.rstrip()`. -/
def pyRstrip (s : String) : String :=
  String.mk ((s.data.reverse.dropWhile isPyWhitespace).reverse)

/-- Python `s.lstrip()`. -/
def pyLstrip (s : String) : String :=
  String.mk (s.data.dropWhile isPyWhitespace)

/-- Python `s.strip()`. -/
def pyStrip (s : String) : String := pyLstrip (pyRstrip s)

/-- Python `s.replace("\\", "/")` (a single-character substitution). -/
def replaceBackslashes (s : String) : String :=
  String.mk (s.data.map fun c => if c = '\\' then '/' else c)

/-- `MEDIA_PATH = "media"`. -/
def MEDIA_PATH : String := "media"

/-- `STYLE_BLACK`: TikZ style directive forcing black drawing and text. -/
def STYLE_BLACK : String :=
  "\\tikzset\x7bevery node/.style=\x7btext=black,fill=none\x7d,every path/.style=\x7bdraw=black,fill=none\x7d\x7d"

/-- `STYLE_WHITE`: TikZ style directive forcing white drawing and text. -/
def STYLE_WHITE : String :=
  "\\tikzset\x7bevery node/.style=\x7btext=white,fill=none\x7d,every path/.style=\x7bdraw=white,fill=none\x7d\x7d"

/-- `DOC_TEMPLATE % (style, code)`: the fixed standalone LaTeX wrapper with
its two `%s` slots filled by the theme style and the extracted code. -/
def docTemplate (style code : String) : String :=
  "\n\\documentclass[border=2pt]\x7bstandalone\x7d\n\\usepackage\x7btikz\x7d\n\\usepackage[siunitx, straight voltages, european]\x7bcircuitikz\x7d\n\\usetikzlibrary\x7bautomata, positioning, arrows, circuits.ee.IEC\x7d\n\\ctikzset\x7b>=latex, tripoles/european not symbol=ieee circle\x7d\n\n"
  ++ style ++ "\n\\begin\x7bdocument\x7d\n" ++ code ++ "\n\\end\x7bdocument\x7d\n"

/-- `sanitize_number`: `"0" if not nums else "_".join(str(n) for n in nums)`. -/
def sanitize_number (nums : List Nat) : String :=
  if nums = [] then "0" else String.intercalate "_" (nums.map toString)

/-! ### The environment extractor

`extract_tikz` applies the regex
`\begin{(?P<env>tikzpicture|circuitikz|picture)}.*?\end{(?P=env)}` with
`re.DOTALL` and returns the matched span.  Python `re.search` semantics:
the match is the one with the leftmost starting position, and at that
position the non-greedy `.*?` makes the match end at the first following
end marker of the same environment name. -/

/-- The three environment names of the regex alternation, in pattern order. -/
def envNames : List String := ["tikzpicture", "circuitikz", "picture"]

/-- The opening marker `\begin{env}` of an environment. -/
def beginMarker (env : String) : String := "\\begin\x7b" ++ env ++ "\x7d"

/-- The closing marker `\end{env}` of an environment. -/
def endMarker (env : String) : String := "\\end\x7b" ++ env ++ "\x7d"

/-- Opening marker as a character list. -/
def beginL (env : String) : List Char := (beginMarker env).data

/-- Closing marker as a character list. -/
def endL (env : String) : List Char := (endMarker env).data

/-- Split a character list at the first occurrence of the marker `m`:
returns `(before, after)` with the input equal to `before ++ m ++ after`,
or `none` when `m` does not occur. -/
def splitAtMarker (m : List Char) : List Char → Option (List Char × List Char)
  | [] => if m.isPrefixOf ([] : List Char) then some ([], []) else none
  | c :: rest =>
    if m.isPrefixOf (c :: rest) then some ([], (c :: rest).drop m.length)
    else
      match splitAtMarker m rest with
      | some (p, s) => some (c :: p, s)
      | none => none

/-- Attempt a regex match anchored at the current position for one fixed
environment name: the begin marker must start here, and the non-greedy body
runs to the first following end marker of the same name. -/
def tryEnv (env : String) (cs : List Char) : Option (List Char) :=
  if (beginL env).isPrefixOf cs then
    match splitAtMarker (endL env) (cs.drop (beginL env).length) with
    | some (mid, _) => some (beginL env ++ mid ++ endL env)
    | none => none
  else none

/-- A match anchored at the current position, trying the three alternation
branches in pattern order. -/
def extractHere (cs : List Char) : Option (List Char) :=
  match tryEnv "tikzpicture" cs with
  | some f => some f
  | none =>
    match tryEnv "circuitikz" cs with
    | some f => some f
    | none => tryEnv "picture" cs

/-- `re.search`: scan left to right for the first position where a match
is anchored. -/
def extractTikzL : List Char → Option (List Char)
  | [] => none
  | c :: rest =>
    match extractHere (c :: rest) with
    | some f => some f
    | none => extractTikzL rest

/-- `extract_tikz(raw)`: the full matched block, or `None`. -/
def extract_tikz (raw : String) : Option String :=
  (extractTikzL raw.data).map String.mk

/-- Python substring test `needle in hay`. -/
def occursIn (needle hay : String) : Bool :=
  (splitAtMarker needle.data hay.data).isSome

/-- The keyword pre-check used on raw blocks before extraction:
`any(k in text for k in ("tikzpicture", "circuitikz", "begin{picture}"))`. -/
def containsAnyKeyword (t : String) : Bool :=
  occursIn "tikzpicture" t || occursIn "circuitikz" t || occursIn "begin\x7bpicture\x7d" t

/-- Number of (possibly overlapping) occurrences of a marker in a character
list: positions where the marker starts. -/
def countOccur (m : List Char) : List Char → Nat
  | [] => 0
  | c :: rest => (if m.isPrefixOf (c :: rest) then 1 else 0) + countOccur m rest

/-! ### The document tree and the filter state -/

/-- The pandoc block shapes the filter inspects.  `rawBlock` carries the
literal text and the format tag (panflute `RawBlock(text, format)`); a
figure carries its identifier (empty when absent) and its stringified
caption; a div carries its class list.  `para` stands for any other block
kind living inside a container (the filter never inspects its content). -/
inductive Block where
  | header (level : Nat)
  | figure (identifier caption : String) (content : List Block)
  | div (classes : List String) (content : List Block)
  | rawBlock (text format : String)
  | para (text : String)
deriving Repr

/-- The state the Python code keeps on the panflute `doc` object
(`level1_number`, `level2_number`, `image_num_per_level2`), together with
the external-world state touched by rendering: the set of files present in
the media directory and the number of external render invocations
(`compile_tikz_to_svg` calls, each one `lualatex` run plus one `pdftocairo`
run) performed so far. -/
structure FilterState where
  level1Number : List Nat
  level2Number : List Nat
  imageNumPerLevel2 : List (List Nat × Nat)
  files : List String
  invocations : Nat
deriving DecidableEq, Repr

/-- Lookup in the `image_num_per_level2` dict (keys are section-number
tuples). -/
def assocGet : List (List Nat × Nat) → List Nat → Option Nat
  | [], _ => none
  | (k, v) :: rest, key => if k = key then some v else assocGet rest key

/-- Update / insert in the `image_num_per_level2` dict. -/
def assocSet : List (List Nat × Nat) → List Nat → Nat → List (List Nat × Nat)
  | [], key, v => [(key, v)]
  | (k, w) :: rest, key, v =>
    if k = key then (k, v) :: rest else (k, w) :: assocSet rest key v

/-- `[1]` on an empty counter list, else increment the last entry
(`lst[-1] += 1`). -/
def incrLast : List Nat → List Nat
  | [] => [1]
  | [n] => [n + 1]
  | n :: rest => n :: incrLast rest

/-- The `pf.Header` branch of `tikz_filter`: level 1 bumps the chapter
counter and clears the section counter and the whole per-section image map;
level 2 bumps the section counter and resets the image counter of the new
section key to 0; other levels leave the numbering untouched. -/
def onHeader (level : Nat) (st : FilterState) : FilterState :=
  if level = 1 then
    { st with level1Number := incrLast st.level1Number,
              level2Number := [],
              imageNumPerLevel2 := [] }
  else if level = 2 then
    let l2 := incrLast st.level2Number
    { st with level2Number := l2,
              imageNumPerLevel2 := assocSet st.imageNumPerLevel2 l2 0 }
  else st

/-- The image-emission steps of both rewrite branches:
`image_num_per_level2.setdefault(key, 0)`, `image_num_per_level2[key] += 1`,
`img_num = image_num_per_level2[key]` with `key = tuple(level2_number)`. -/
def onImageEmission (st : FilterState) : FilterState × Nat :=
  let key := st.level2Number
  let m0 :=
    match assocGet st.imageNumPerLevel2 key with
    | some _ => st.imageNumPerLevel2
    | none => assocSet st.imageNumPerLevel2 key 0
  let n := (assocGet m0 key).getD 0 + 1
  ({ st with imageNumPerLevel2 := assocSet m0 key n }, n)

/-! ### The render cache -/

/-- The two target paths for a base filename:
`os.path.join(MEDIA_PATH, f"{base}_black.svg")` and the white twin.  The
extension is the literal `svg` in the source. -/
def targetPaths (base : String) : String × String :=
  (MEDIA_PATH ++ "/" ++ base ++ "_black.svg",
   MEDIA_PATH ++ "/" ++ base ++ "_white.svg")

/-- Model of `compile_tikz_to_svg(code, out_svg, style)`.  The synthesized
standalone document is compiled by the external toolchain, modelled by the
oracle `renderOk` on the full document text: on success the output file is
moved to `outPath` and `True` is returned, on failure (non-zero exit of
`lualatex` or `pdftocairo`, or any other exception) no file is left at the
target and `False` is returned.  Every call performs external invocations,
so the invocation counter always advances. -/
def compile_tikz_to_svg (renderOk : String → Bool) (code outPath style : String)
    (st : FilterState) : FilterState × Bool :=
  let fullDoc := docTemplate style code
  if renderOk fullDoc then
    ({ st with files := st.files ++ [outPath], invocations := st.invocations + 1 }, true)
  else
    ({ st with invocations := st.invocations + 1 }, false)

/-- The render-cache block shared by both rewrite branches
(`os.makedirs` is a no-op in the model; then for each theme: compile only
if the target path does not already exist).  Returns the updated state and
the two target paths.  The boolean results of the compile calls are
discarded, exactly as in the source. -/
def ensureRendered (renderOk : String → Bool) (tikzCode base : String)
    (st : FilterState) : FilterState × String × String :=
  let black := (targetPaths base).1
  let white := (targetPaths base).2
  let st1 := if black ∈ st.files then st
             else (compile_tikz_to_svg renderOk tikzCode black STYLE_BLACK st).1
  let st2 := if white ∈ st1.files then st1
             else (compile_tikz_to_svg renderOk tikzCode white STYLE_WHITE st1).1
  (st2, black, white)

/-- The numbering-plus-cache pipeline shared verbatim by the figure branch
(lines 206-233) and the center-div branch (lines 277-301): read the
sanitized heading numbers, take the next per-section image number, hash the
code, build the base filename, run the cache, and return the two
forward-slash relative paths. -/
def renderPipeline (renderOk : String → Bool) (sha1 : String → String)
    (tikzCode : String) (st : FilterState) : FilterState × String × String :=
  let hl1 := sanitize_number st.level1Number
  let hl2 := sanitize_number st.level2Number
  let (st1, imgNum) := onImageEmission st
  let h := sha1 tikzCode
  let base := hl1 ++ "_" ++ hl2 ++ "_" ++ toString imgNum ++ "_" ++ h
  let (st2, black, white) := ensureRendered renderOk tikzCode base st1
  (st2, replaceBackslashes black, replaceBackslashes white)

/-! ### The MyST replacement blocks -/

/-- The figure replacement markup (`myst_lines` joined by newlines plus a
trailing newline).  The label line is present only for a non-empty
identifier and is `rstrip`ped as in the source. -/
def mystFigureStr (label caption blackRel whiteRel : String) : String :=
  let labelField := if label = "" then "" else ":label: " ++ label ++ "\n"
  let lines : List String :=
    ["::::\x7bfigure\x7d"]
    ++ (if labelField = "" then [] else [pyRstrip labelField])
    ++ [":alt: " ++ caption, "",
        ":::\x7bdiv\x7d", ":class: dark:hidden", "![](" ++ blackRel ++ ")", ":::", "",
        ":::\x7bdiv\x7d", ":class: hidden dark:block", "![](" ++ whiteRel ++ ")", ":::", "",
        caption, "::::"]
  String.intercalate "\n" lines ++ "\n"

/-- The center-div replacement markup (`md_lines` joined by newlines, then
`strip()`, then a trailing newline). -/
def mdCenterStr (blackRel whiteRel : String) : String :=
  let lines : List String :=
    [":::\x7bdiv\x7d", ":class: dark:hidden", "![](" ++ blackRel ++ ")", ":::", "",
     ":::\x7bdiv\x7d", ":class: hidden dark:block", "![](" ++ whiteRel ++ ")", ":::", ""]
  pyStrip (String.intercalate "\n" lines) ++ "\n"

/-- `_is_tikz_darklight_raw`: recognizes a previously emitted theme-toggle
raw block by its format tag and its theme-class markers.  (Defined in the
source but never called by `tikz_filter`.) -/
def is_tikz_darklight_raw : Block → Bool
  | .rawBlock t f =>
    (f = "html" || f = "markdown" || f = "gfm")
      && (occursIn "dark:hidden" t || occursIn "hidden dark:block" t)
  | _ => false

/-! ### The filter action -/

/-- The figure branch's search for a raw child whose text contains one of
the three keywords (`for c in elem.content: ... break`). -/
def findTikzRaw : List Block → Option String
  | [] => none
  | .rawBlock t _ :: rest => if containsAnyKeyword t then some t else findTikzRaw rest
  | _ :: rest => findTikzRaw rest

/-- The loop of the center-div branch: walk the children; on the first raw
child containing a keyword, extract (an extraction miss returns the whole
div unchanged), render and replace the entire div by one markdown raw
block; when no child qualifies, return the div unchanged. -/
def centerLoop (renderOk : String → Bool) (sha1 : String → String) (orig : Block) :
    List Block → FilterState → FilterState × List Block
  | [], st => (st, [orig])
  | .rawBlock t f :: rest, st =>
    if containsAnyKeyword t then
      match extract_tikz t with
      | none => (st, [orig])
      | some code =>
        let (st2, blackRel, whiteRel) := renderPipeline renderOk sha1 code st
        (st2, [.rawBlock (mdCenterStr blackRel whiteRel) "markdown"])
    else centerLoop renderOk sha1 orig rest st
  | _ :: rest, st => centerLoop renderOk sha1 orig rest st

/-- `tikz_filter(elem, doc)`: the traversal action.  The returned list is
the replacement for the visited node (`[elem]` meaning "unchanged", as
panflute keeps the node when the action returns it).  `prepare` has already
initialized the numbering attributes, so the `hasattr` re-initialization
branches in the source are no-ops and are not modelled separately. -/
def tikz_filter (renderOk : String → Bool) (sha1 : String → String)
    (elem : Block) (st : FilterState) : FilterState × List Block :=
  match elem with
  | .header level => (onHeader level st, [elem])
  | .figure identifier caption content =>
    match findTikzRaw content with
    | none => (st, [elem])
    | some tikzRaw =>
      match extract_tikz tikzRaw with
      | none => (st, [elem])
      | some tikzCode =>
        let (st2, blackRel, whiteRel) := renderPipeline renderOk sha1 tikzCode st
        (st2, [.rawBlock (mystFigureStr identifier caption blackRel whiteRel) "markdown"])
  | .div classes content =>
    if "center" ∈ classes then centerLoop renderOk sha1 elem content st
    else (st, [elem])
  | _ => (st, [elem])

/-- One pass over a top-level block sequence in document order, threading
the doc state and concatenating the replacements (the panflute walk; for
the container shapes used here the visits to the children are identity, so
the top-level fold is the whole traversal). -/
def run_filter (renderOk : String → Bool) (sha1 : String → String) :
    List Block → FilterState → FilterState × List Block
  | [], st => (st, [])
  | b :: rest, st =>
    let (st1, out) := tikz_filter renderOk sha1 b st
    let (st2, outs) := run_filter renderOk sha1 rest st1
    (st2, out ++ outs)

/-- `prepare(doc)`: the numbering attributes start empty; a fresh run over
an empty media directory also starts with no files and no invocations. -/
def prepare : FilterState :=
  { level1Number := [], level2Number := [], imageNumPerLevel2 := [],
    files := [], invocations := 0 }

/-- Modelled from the spec (the comparison point for claim C7): the spec
says the target extension is `svg` unless the document's output format is a
PDF-based format, in which case it is `pdf`.  The source has no such
branch. -/
def extensionPerSpec (isPdfFormat : Bool) : String :=
  if isPdfFormat then "pdf" else "svg"

/-! ### Concrete inputs used by witnesses and counterexamples -/

/-- A small diagram source (spans newlines). -/
def tikzSample : String :=
  "\\begin\x7btikzpicture\x7d\n\\draw (0,0) -- (1,1);\n\\end\x7btikzpicture\x7d"

/-- An opaque stand-in for the content hash (the claims hold for every hash
function; only functionality of the hash matters). -/
def sha1c : String → String := fun _ => "HASH"

/-- Oracle: every external render succeeds. -/
def okAll : String → Bool := fun _ => true

/-- Oracle: every external render fails (e.g. `lualatex` exits non-zero). -/
def okNone : String → Bool := fun _ => false

/-- A figure node holding the sample diagram (used for claim C1). -/
def figC1 : Block := .figure "fig:broken" "Broken" [.rawBlock tikzSample "latex"]

/-- A centering wrapper holding the sample diagram (used for claim C1). -/
def divC1 : Block := .div ["center"] [.rawBlock tikzSample "latex"]

/-- A bare raw LaTeX block holding the sample diagram (used for claim C2). -/
def rawC2 : Block := .rawBlock tikzSample "tex"

/-- A centering wrapper with a non-diagram paragraph before the diagram
raw-block (used for claim C3). -/
def divC3 : Block := .div ["center"] [.para "Intro text", .rawBlock tikzSample "latex"]

/-- An anonymous figure holding the sample diagram (used for claim C4). -/
def figC4 : Block := .figure "" "" [.rawBlock tikzSample "latex"]

/-- The starting state of a second full run over the same document: fresh
numbering, but the media files produced by the first run are on disk. -/
def rerunState : FilterState :=
  { prepare with files := (run_filter okAll sha1c [figC4, figC4] prepare).1.files }

/-- A previously emitted theme-toggle raw block, exactly as the filter
emits it (used for claim C5). -/
def prevBlock : Block :=
  .rawBlock (mdCenterStr "media/0_0_1_HASH_black.svg" "media/0_0_1_HASH_white.svg") "markdown"

/-- A centering wrapper that already contains a previously emitted
theme-toggle block (used for claim C5). -/
def divC5 : Block := .div ["center"] [prevBlock]

/-- Does a block qualify as a diagram candidate for the center-div loop
(a raw block whose text contains one of the three keywords)? -/
def blockHasKeyword : Block → Bool
  | .rawBlock t _ => containsAnyKeyword t
  | _ => false

/-- A state in the middle of a document (chapter 2, section 3, five images
emitted in the current section) used by the claim C6 witness. -/
def stW : FilterState :=
  { level1Number := [2], level2Number := [3], imageNumPerLevel2 := [([3], 5)],
    files := [], invocations := 0 }

/-- A raw text with leading context and a newline inside the environment
(used by the claim C8 witness). -/
def rawC8 : List Char := ("x\n" ++ tikzSample ++ "\ny").data

/-! ### Basic lemmas on prefixes and marker search -/

theorem string_append_assoc (a b c : String) : a ++ b ++ c = a ++ (b ++ c) := by
  cases a with | mk x =>
  cases b with | mk y =>
  cases c with | mk z =>
  show String.mk ((x ++ y) ++ z) = String.mk (x ++ (y ++ z))
  rw [List.append_assoc]

theorem isPrefixOf_append_self (a b : List Char) : a.isPrefixOf (a ++ b) = true := by
  induction a with
  | nil => simp [List.isPrefixOf]
  | cons c cs ih => simp [List.isPrefixOf, ih]

theorem isPrefixOf_extend {a x : List Char} (y : List Char)
    (h : a.isPrefixOf x = true) : a.isPrefixOf (x ++ y) = true := by
  induction a generalizing x with
  | nil => simp [List.isPrefixOf]
  | cons c cs ih =>
    cases x with
    | nil => simp [List.isPrefixOf] at h
    | cons d ds =>
      simp only [List.isPrefixOf, Bool.and_eq_true, beq_iff_eq] at h
      simp [List.isPrefixOf, h.1, ih h.2]

theorem eq_append_drop_of_isPrefixOf {m : List Char} :
    ∀ {cs : List Char}, m.isPrefixOf cs = true → cs = m ++ cs.drop m.length := by
  induction m with
  | nil => intro cs _; simp
  | cons a as ih =>
    intro cs h
    cases cs with
    | nil => simp [List.isPrefixOf] at h
    | cons b bs =>
      simp only [List.isPrefixOf, Bool.and_eq_true, beq_iff_eq] at h
      obtain ⟨rfl, h2⟩ := h
      simpa using ih h2

theorem isPrefixOf_length_le {m : List Char} :
    ∀ {cs : List Char}, m.isPrefixOf cs = true → m.length ≤ cs.length := by
  induction m with
  | nil => intro cs _; simp
  | cons a as ih =>
    intro cs h
    cases cs with
    | nil => simp [List.isPrefixOf] at h
    | cons b bs =>
      simp only [List.isPrefixOf, Bool.and_eq_true] at h
      simpa using ih h.2

theorem isPrefixOf_false_of_shorter {l₁ l₂ : List Char}
    (hne : l₂.isPrefixOf l₁ = false) (hlen : l₂.length ≤ l₁.length) (z : List Char) :
    l₁.isPrefixOf (l₂ ++ z) = false := by
  induction l₂ generalizing l₁ with
  | nil => simp [List.isPrefixOf] at hne
  | cons b bs ih =>
    cases l₁ with
    | nil => simp at hlen
    | cons a as =>
      simp only [List.isPrefixOf, Bool.and_eq_false_iff] at hne
      rcases hne with hne | hne
      · have : (a == b) = false := by
          cases h : a == b
          · rfl
          · rw [beq_iff_eq] at h
            rw [h] at hne
            simp at hne
        simp [List.isPrefixOf, this]
      · have hl : bs.length ≤ as.length := by simpa using hlen
        simp [List.isPrefixOf, ih hne hl]

theorem splitAtMarker_sound {m : List Char} :
    ∀ {cs p s : List Char}, splitAtMarker m cs = some (p, s) → cs = p ++ m ++ s := by
  intro cs
  induction cs with
  | nil =>
    intro p s h
    rw [splitAtMarker] at h
    split at h
    · rename_i hpre
      cases m with
      | nil => simp_all
      | cons a as => simp [List.isPrefixOf] at hpre
    · simp at h
  | cons c rest ih =>
    intro p s h
    rw [splitAtMarker] at h
    split at h
    · rename_i hpre
      simp only [Option.some.injEq, Prod.mk.injEq] at h
      obtain ⟨rfl, rfl⟩ := h
      simpa using eq_append_drop_of_isPrefixOf hpre
    · rename_i hpre
      split at h
      · rename_i p' s' hsplit
        simp only [Option.some.injEq, Prod.mk.injEq] at h
        obtain ⟨rfl, rfl⟩ := h
        simpa using ih hsplit
      · simp at h

theorem splitAtMarker_none {m : List Char} :
    ∀ {cs : List Char}, splitAtMarker m cs = none → ∀ p s, cs ≠ p ++ m ++ s := by
  intro cs
  induction cs with
  | nil =>
    intro h p s heq
    rw [splitAtMarker] at h
    split at h
    · simp at h
    · rename_i hpre
      cases m with
      | nil => simp [List.isPrefixOf] at hpre
      | cons a as =>
        cases p with
        | nil => simp at heq
        | cons q qs => simp at heq
  | cons c rest ih =>
    intro h p s heq
    rw [splitAtMarker] at h
    split at h
    · simp at h
    · rename_i hpre
      split at h
      · simp at h
      · rename_i hsplit
        cases p with
        | nil =>
          simp only [List.nil_append] at heq
          rw [heq] at hpre
          rw [isPrefixOf_append_self] at hpre
          simp at hpre
        | cons q qs =>
          simp only [List.cons_append, List.cons.injEq] at heq
          exact ih hsplit qs s heq.2

theorem drop_append_len (l₁ l₂ : List Char) (j : Nat) :
    (l₁ ++ l₂).drop (l₁.length + j) = l₂.drop j := by
  induction l₁ with
  | nil => simp
  | cons c cs ih => simpa [Nat.succ_add] using ih

theorem splitAtMarker_first {m : List Char} (hm : m ≠ []) :
    ∀ (X Y : List Char),
      (∀ i, i < X.length → m.isPrefixOf (X.drop i ++ m ++ Y) = false) →
      splitAtMarker m (X ++ m ++ Y) = some (X, Y) := by
  intro X
  induction X with
  | nil =>
    intro Y _
    cases m with
    | nil => exact absurd rfl hm
    | cons a as =>
      have hpre : (a :: as).isPrefixOf (a :: (as ++ Y)) = true := by
        simpa using isPrefixOf_append_self (a :: as) Y
      have hdrop : (a :: (as ++ Y)).drop (a :: as).length = Y := by
        simpa using List.drop_left (a :: as) Y
      simp only [List.nil_append, List.cons_append]
      rw [splitAtMarker, hpre]
      simp [hdrop]
  | cons x X' ih =>
    intro Y h
    have h0 : m.isPrefixOf ((x :: X') ++ m ++ Y) = false := by
      have := h 0 (by simp)
      simpa using this
    simp only [List.cons_append]
    rw [splitAtMarker]
    simp only [List.cons_append] at h0
    rw [h0]
    simp only [Bool.false_eq_true, if_false]
    have hrec : splitAtMarker m (X' ++ m ++ Y) = some (X', Y) := by
      apply ih
      intro i hi
      have := h (i + 1) (by simpa using Nat.succ_lt_succ hi)
      simpa using this
    rw [hrec]

/-! ### Lemmas on the anchored environment match -/

theorem beginL_ne_nil (env : String) : beginL env ≠ [] := by
  show '\\' :: ("begin\x7b".data ++ (env.data ++ ['\x7d'])) ≠ []
  simp

theorem endL_ne_nil (env : String) : endL env ≠ [] := by
  show '\\' :: ("end\x7b".data ++ (env.data ++ ['\x7d'])) ≠ []
  simp

theorem tryEnv_sound {env : String} {cs frag : List Char}
    (h : tryEnv env cs = some frag) :
    ∃ mid rest, cs = beginL env ++ mid ++ endL env ++ rest ∧
      frag = beginL env ++ mid ++ endL env := by
  rw [tryEnv] at h
  split at h
  · rename_i hpre
    split at h
    · rename_i mid s hsplit
      simp only [Option.some.injEq] at h
      have hcs := eq_append_drop_of_isPrefixOf hpre
      have htail := splitAtMarker_sound hsplit
      refine ⟨mid, s, ?_, h.symm⟩
      conv_lhs => rw [hcs]
      rw [htail]
      simp [List.append_assoc]
    · simp at h
  · simp at h

theorem tryEnv_none {env : String} {cs : List Char}
    (h : tryEnv env cs = none) :
    ∀ mid rest, cs ≠ beginL env ++ mid ++ endL env ++ rest := by
  intro mid rest heq
  rw [tryEnv] at h
  split at h
  · rename_i hpre
    split at h
    · simp at h
    · rename_i hsplit
      have hdrop : cs.drop (beginL env).length = mid ++ endL env ++ rest := by
        rw [heq]
        have : beginL env ++ mid ++ endL env ++ rest
            = beginL env ++ (mid ++ endL env ++ rest) := by
          simp [List.append_assoc]
        rw [this, List.drop_left]
      exact splitAtMarker_none hsplit mid rest (by simpa [List.append_assoc] using hdrop)
  · rename_i hpre
    apply hpre
    rw [heq]
    have : beginL env ++ mid ++ endL env ++ rest
        = beginL env ++ (mid ++ endL env ++ rest) := by
      simp [List.append_assoc]
    rw [this]
    exact isPrefixOf_append_self _ _

theorem tryEnv_isSome {env : String} {cs mid rest : List Char}
    (h : cs = beginL env ++ mid ++ endL env ++ rest) :
    (tryEnv env cs).isSome = true := by
  cases hte : tryEnv env cs with
  | some f => rfl
  | none => exact absurd h (tryEnv_none hte mid rest)

theorem extractHere_sound {cs frag : List Char}
    (h : extractHere cs = some frag) :
    ∃ env, env ∈ envNames ∧ ∃ mid rest,
      cs = beginL env ++ mid ++ endL env ++ rest ∧
      frag = beginL env ++ mid ++ endL env := by
  rw [extractHere] at h
  split at h
  · rename_i f h1
    simp only [Option.some.injEq] at h
    subst h
    exact ⟨"tikzpicture", by simp [envNames], tryEnv_sound h1⟩
  · rename_i h1
    split at h
    · rename_i f h2
      simp only [Option.some.injEq] at h
      subst h
      exact ⟨"circuitikz", by simp [envNames], tryEnv_sound h2⟩
    · exact ⟨"picture", by simp [envNames], tryEnv_sound h⟩

theorem extractHere_none {cs : List Char}
    (h : extractHere cs = none) :
    ∀ env ∈ envNames, ∀ mid rest, cs ≠ beginL env ++ mid ++ endL env ++ rest := by
  intro env henv mid rest heq
  rw [extractHere] at h
  split at h
  · simp at h
  · rename_i h1
    split at h
    · simp at h
    · rename_i h2
      simp only [envNames, List.mem_cons, List.not_mem_nil, or_false] at henv
      rcases henv with rfl | rfl | rfl
      · exact tryEnv_none h1 mid rest heq
      · exact tryEnv_none h2 mid rest heq
      · exact tryEnv_none h mid rest heq

theorem extractHere_isSome {env : String} {cs mid rest : List Char}
    (henv : env ∈ envNames)
    (h : cs = beginL env ++ mid ++ endL env ++ rest) :
    (extractHere cs).isSome = true := by
  cases hex : extractHere cs with
  | some f => rfl
  | none => exact absurd h (extractHere_none hex env henv mid rest)

/-! ### Lemmas on the left-to-right scan -/

theorem extractTikzL_cons_of_here {c : Char} {rest f : List Char}
    (h : extractHere (c :: rest) = some f) :
    extractTikzL (c :: rest) = some f := by
  rw [extractTikzL, h]

theorem extractTikzL_cons_of_none {c : Char} {rest : List Char}
    (h : extractHere (c :: rest) = none) :
    extractTikzL (c :: rest) = extractTikzL rest := by
  rw [extractTikzL, h]

theorem extractTikzL_sound :
    ∀ {cs frag : List Char}, extractTikzL cs = some frag →
      ∃ env mid pre post, env ∈ envNames ∧
        frag = beginL env ++ mid ++ endL env ∧ cs = pre ++ frag ++ post := by
  intro cs
  induction cs with
  | nil => intro frag h; rw [extractTikzL] at h; simp at h
  | cons c rest ih =>
    intro frag h
    rw [extractTikzL] at h
    split at h
    · rename_i f hf
      simp only [Option.some.injEq] at h
      subst h
      obtain ⟨env, henv, mid, r, hcs, hfrag⟩ := extractHere_sound hf
      refine ⟨env, mid, [], r, henv, hfrag, ?_⟩
      rw [hcs, hfrag]
      simp [List.append_assoc]
    · obtain ⟨env, mid, pre, post, henv, hfrag, hrest⟩ := ih h
      exact ⟨env, mid, c :: pre, post, henv, hfrag, by simp [hrest]⟩

theorem extractTikzL_none :
    ∀ {cs : List Char}, extractTikzL cs = none →
      ∀ env ∈ envNames, ∀ pre mid post,
        cs ≠ pre ++ beginL env ++ mid ++ endL env ++ post := by
  intro cs
  induction cs with
  | nil =>
    intro _ env henv pre mid post heq
    have hb := beginL_ne_nil env
    cases pre with
    | nil =>
      cases hbl : beginL env with
      | nil => exact hb hbl
      | cons a as => rw [hbl] at heq; simp at heq
    | cons q qs => simp at heq
  | cons c rest ih =>
    intro h env henv pre mid post heq
    rw [extractTikzL] at h
    split at h
    · simp at h
    · rename_i hnone
      cases pre with
      | nil =>
        simp only [List.nil_append] at heq
        exact extractHere_none hnone env henv mid post heq
      | cons q qs =>
        simp only [List.cons_append, List.cons.injEq] at heq
        exact ih h env henv qs mid post heq.2

theorem extractTikzL_isSome {env : String} {cs pre mid post : List Char}
    (henv : env ∈ envNames)
    (h : cs = pre ++ beginL env ++ mid ++ endL env ++ post) :
    (extractTikzL cs).isSome = true := by
  cases hex : extractTikzL cs with
  | some f => rfl
  | none => exact absurd h (extractTikzL_none hex env henv pre mid post)

theorem extractTikzL_leftmost {env : String} (henv : env ∈ envNames) :
    ∀ (pre cs mid post : List Char),
      cs = pre ++ beginL env ++ mid ++ endL env ++ post →
      ∃ frag2 pre2 post2, extractTikzL cs = some frag2 ∧
        cs = pre2 ++ frag2 ++ post2 ∧ pre2.length ≤ pre.length := by
  intro pre
  induction pre with
  | nil =>
    intro cs mid post heq
    simp only [List.nil_append] at heq
    have hb := beginL_ne_nil env
    cases hbl : beginL env with
    | nil => exact absurd hbl hb
    | cons a as =>
      rw [hbl] at heq
      simp only [List.cons_append] at heq
      subst heq
      have hsome : (extractHere (a :: (as ++ mid ++ endL env ++ post))).isSome = true := by
        have hshape : a :: (as ++ mid ++ endL env ++ post)
            = beginL env ++ mid ++ endL env ++ post := by
          rw [hbl]
          simp [List.append_assoc]
        exact extractHere_isSome henv hshape
      cases hex : extractHere (a :: (as ++ mid ++ endL env ++ post)) with
      | none => rw [hex] at hsome; simp at hsome
      | some f =>
        obtain ⟨env2, henv2, mid2, r2, hcs, hfrag⟩ := extractHere_sound hex
        refine ⟨f, [], r2, extractTikzL_cons_of_here hex, ?_, by simp⟩
        rw [hcs, hfrag]
        simp [List.append_assoc]
  | cons q qs ih =>
    intro cs mid post heq
    simp only [List.cons_append] at heq
    subst heq
    cases hex : extractHere (q :: (qs ++ beginL env ++ mid ++ endL env ++ post)) with
    | some f =>
      obtain ⟨env2, henv2, mid2, r2, hcs, hfrag⟩ := extractHere_sound hex
      refine ⟨f, [], r2, extractTikzL_cons_of_here hex, ?_, by simp⟩
      rw [hcs, hfrag]
      simp [List.append_assoc]
    | none =>
      obtain ⟨frag2, pre2, post2, hx, hdec, hlen⟩ :=
        ih (qs ++ beginL env ++ mid ++ endL env ++ post) mid post (by simp [List.append_assoc])
      refine ⟨frag2, q :: pre2, post2, ?_,
        by simpa [List.append_assoc] using congrArg (List.cons q) hdec,
        by simpa using Nat.succ_le_succ hlen⟩
      rw [extractTikzL_cons_of_none hex]
      exact hx

/-! ### Lemmas on occurrence counting and anchored extraction -/

theorem tryEnv_none_of_no_begin {env : String} {cs : List Char}
    (h : (beginL env).isPrefixOf cs = false) : tryEnv env cs = none := by
  rw [tryEnv, h]
  simp

theorem extractTikzL_eq_some_of_here {cs f : List Char}
    (hne : cs ≠ []) (h : extractHere cs = some f) : extractTikzL cs = some f := by
  cases cs with
  | nil => exact absurd rfl hne
  | cons c rest => exact extractTikzL_cons_of_here h

theorem extract_at_anchor {env : String} (henv : env ∈ envNames) (M rest : List Char)
    (hM : ∀ j, j < M.length →
      (endL env).isPrefixOf (M.drop j ++ endL env ++ rest) = false) :
    extractTikzL (beginL env ++ M ++ endL env ++ rest)
      = some (beginL env ++ M ++ endL env) := by
  have he := endL_ne_nil env
  have hb := beginL_ne_nil env
  have hsplit : splitAtMarker (endL env) (M ++ endL env ++ rest) = some (M, rest) :=
    splitAtMarker_first he M rest hM
  have hshape : beginL env ++ M ++ endL env ++ rest
      = beginL env ++ (M ++ endL env ++ rest) := by
    simp [List.append_assoc]
  have hpre : (beginL env).isPrefixOf (beginL env ++ (M ++ endL env ++ rest)) = true :=
    isPrefixOf_append_self _ _
  have hdrop : (beginL env ++ (M ++ endL env ++ rest)).drop (beginL env).length
      = M ++ endL env ++ rest := List.drop_left _ _
  have htry : tryEnv env (beginL env ++ (M ++ endL env ++ rest))
      = some (beginL env ++ M ++ endL env) := by
    rw [tryEnv]
    rw [hpre]
    simp only [if_true]
    rw [hdrop, hsplit]
  have hne2 : beginL env ++ (M ++ endL env ++ rest) ≠ [] := by
    simp [List.append_eq_nil, hb]
  rw [hshape]
  apply extractTikzL_eq_some_of_here hne2
  simp only [envNames, List.mem_cons, List.not_mem_nil, or_false] at henv
  rcases henv with rfl | rfl | rfl
  · rw [extractHere, htry]
  · have h1 : tryEnv "tikzpicture" (beginL "circuitikz" ++ (M ++ endL "circuitikz" ++ rest))
        = none :=
      tryEnv_none_of_no_begin (isPrefixOf_false_of_shorter (by decide) (by decide) _)
    rw [extractHere, h1, htry]
  · have h1 : tryEnv "tikzpicture" (beginL "picture" ++ (M ++ endL "picture" ++ rest))
        = none :=
      tryEnv_none_of_no_begin (isPrefixOf_false_of_shorter (by decide) (by decide) _)
    have h2 : tryEnv "circuitikz" (beginL "picture" ++ (M ++ endL "picture" ++ rest))
        = none :=
      tryEnv_none_of_no_begin (isPrefixOf_false_of_shorter (by decide) (by decide) _)
    rw [extractHere, h1, h2, htry]

theorem countOccur_zero_of_short {m : List Char} :
    ∀ {t : List Char}, t.length < m.length → countOccur m t = 0 := by
  intro t
  induction t with
  | nil => intro _; rfl
  | cons c cs ih =>
    intro hlt
    rw [countOccur]
    have hp : m.isPrefixOf (c :: cs) = false := by
      cases hc : m.isPrefixOf (c :: cs)
      · rfl
      · have := isPrefixOf_length_le hc
        omega
    rw [hp]
    have : cs.length < m.length := by simp at hlt; omega
    simp [ih this]

theorem countOccur_le_append (m X : List Char) :
    ∀ z, countOccur m z ≤ countOccur m (X ++ z) := by
  induction X with
  | nil => intro z; simp
  | cons x X' ih =>
    intro z
    rw [List.cons_append, countOccur]
    exact le_trans (ih z) (Nat.le_add_left _ _)

theorem countOccur_self_append {m : List Char} (hm : m ≠ []) (z : List Char) :
    1 + countOccur m z ≤ countOccur m (m ++ z) := by
  cases m with
  | nil => exact absurd rfl hm
  | cons a as =>
    rw [List.cons_append, countOccur]
    have hpre : (a :: as).isPrefixOf (a :: (as ++ z)) = true := by
      simpa using isPrefixOf_append_self (a :: as) z
    rw [hpre]
    simp only [if_true]
    have := countOccur_le_append (a :: as) as z
    omega

theorem countOccur_eq_one {m : List Char} (hm : m ≠ []) :
    ∀ (X : List Char),
      (∀ i, i < X.length → m.isPrefixOf (X.drop i ++ m) = false) →
      countOccur m (X ++ m) = 1 := by
  intro X
  induction X with
  | nil =>
    intro _
    cases m with
    | nil => exact absurd rfl hm
    | cons a as =>
      rw [List.nil_append, countOccur]
      have hpre : (a :: as).isPrefixOf (a :: as) = true := by
        simpa using isPrefixOf_append_self (a :: as) []
      rw [hpre]
      have hz : countOccur (a :: as) as = 0 := countOccur_zero_of_short (by simp)
      simp [hz]
  | cons x X' ih =>
    intro h
    rw [List.cons_append, countOccur]
    have h0 : m.isPrefixOf (x :: (X' ++ m)) = false := by
      have := h 0 (by simp)
      simpa using this
    rw [h0]
    simp only [Bool.false_eq_true, if_false, Nat.zero_add]
    apply ih
    intro i hi
    have := h (i + 1) (by simpa using Nat.succ_lt_succ hi)
    simpa using this

/-! ### Claim theorems -/

/-- Claim C8: for every input, the fragment extractor returns the exact
substring of the first occurrence of a complete begin/end pair of one of
the three environments, with the end marker's name equal to the begin
marker's, both markers included; when no complete pair of any of the three
kinds exists it returns `none`, and the callers (the figure branch and the
centering branch of `tikz_filter`) then leave the node unchanged.
Stated as: (1) soundness — a returned fragment is a begin/end pair of one
of the three environments occurring verbatim in the input; (2) `none`
exactly when no decomposition around a complete pair exists; (3)
leftmostness — whenever a complete pair occurs after some prefix, the
extractor succeeds and its match starts no later than that prefix;
(4)/(5) on extraction miss, `tikz_filter` returns the figure node and the
centering div unchanged.  Nothing constrains the characters of the body,
so the match spans newlines (the witness instantiates one). -/
theorem extract_tikz_first_complete_pair :
    (∀ raw frag, extractTikzL raw = some frag →
      ∃ env mid pre post, env ∈ envNames ∧
        frag = beginL env ++ mid ++ endL env ∧ raw = pre ++ frag ++ post)
  ∧ (∀ raw, extractTikzL raw = none ↔
      ∀ env ∈ envNames, ∀ pre mid post,
        raw ≠ pre ++ beginL env ++ mid ++ endL env ++ post)
  ∧ (∀ raw env pre mid post, env ∈ envNames →
      raw = pre ++ beginL env ++ mid ++ endL env ++ post →
      ∃ frag2 pre2 post2, extractTikzL raw = some frag2 ∧
        raw = pre2 ++ frag2 ++ post2 ∧ pre2.length ≤ pre.length)
  ∧ (∀ (renderOk : String → Bool) (sha1 : String → String) (st : FilterState)
        (idt cap t f : String), extract_tikz t = none →
      tikz_filter renderOk sha1 (.figure idt cap [.rawBlock t f]) st
        = (st, [.figure idt cap [.rawBlock t f]]))
  ∧ (∀ (renderOk : String → Bool) (sha1 : String → String) (st : FilterState)
        (t f : String), extract_tikz t = none →
      tikz_filter renderOk sha1 (.div ["center"] [.rawBlock t f]) st
        = (st, [.div ["center"] [.rawBlock t f]])) := by
  refine ⟨?_, ?_, ?_, ?_, ?_⟩
  · intro raw frag h
    exact extractTikzL_sound h
  · intro raw
    constructor
    · intro h env henv pre mid post heq
      exact extractTikzL_none h env henv pre mid post heq
    · intro h
      cases hex : extractTikzL raw with
      | none => rfl
      | some frag =>
        obtain ⟨env, mid, pre, post, henv, hfrag, hraw⟩ := extractTikzL_sound hex
        exact absurd (by rw [hraw, hfrag]; simp [List.append_assoc])
          (h env henv pre mid post)
  · intro raw env pre mid post henv heq
    exact extractTikzL_leftmost henv pre raw mid post heq
  · intro renderOk sha1 st idt cap t f hx
    show tikz_filter renderOk sha1 (.figure idt cap [.rawBlock t f]) st = _
    rw [tikz_filter]
    cases hk : containsAnyKeyword t with
    | false => simp [findTikzRaw, hk]
    | true =>
      have hxt : extract_tikz t = none := hx
      simp [findTikzRaw, hk, hxt]
  · intro renderOk sha1 st t f hx
    rw [tikz_filter]
    cases hk : containsAnyKeyword t with
    | false => simp [centerLoop, hk]
    | true => simp [centerLoop, hk, hx]

/-- Witness for claim C8: concrete instances of all five parts — the sample
raw text (with leading context and an embedded newline) yields exactly the
sample environment as fragment together with its decomposition, and a
keyword-bearing raw text without a complete pair leaves both container
shapes unchanged. -/
theorem extract_tikz_first_complete_pair_witness :
    (∃ env mid pre post, env ∈ envNames ∧
        tikzSample.data = beginL env ++ mid ++ endL env ∧
        rawC8 = pre ++ tikzSample.data ++ post)
  ∧ (∃ frag2 pre2 post2, extractTikzL rawC8 = some frag2 ∧
        rawC8 = pre2 ++ frag2 ++ post2 ∧ pre2.length ≤ 2)
  ∧ tikz_filter okAll sha1c (.figure "i" "cap" [.rawBlock "tikzpicture" "latex"]) prepare
      = (prepare, [.figure "i" "cap" [.rawBlock "tikzpicture" "latex"]])
  ∧ tikz_filter okAll sha1c (.div ["center"] [.rawBlock "tikzpicture" "latex"]) prepare
      = (prepare, [.div ["center"] [.rawBlock "tikzpicture" "latex"]]) :=
  ⟨extract_tikz_first_complete_pair.1 rawC8 tikzSample.data (by decide),
   extract_tikz_first_complete_pair.2.2.1 rawC8 "tikzpicture" ("x\n".data)
     ("\n\\draw (0,0) -- (1,1);\n".data) ("\ny".data) (by decide) (by decide),
   extract_tikz_first_complete_pair.2.2.2.1 okAll sha1c prepare "i" "cap"
     "tikzpicture" "latex" (by decide),
   extract_tikz_first_complete_pair.2.2.2.2 okAll sha1c prepare
     "tikzpicture" "latex" (by decide)⟩

/-- Claim C10: on an input of the nested same-named-environment shape
`\begin{env} A \begin{env} B \end{env} C \end{env} D` (the hypothesis says
the displayed end marker is the first occurrence of an end marker in the
text, which is exactly the nested-environment situation), the extractor
returns the minimal span from the first begin marker through the first
following end marker — non-greedy, with no balancing — so the returned
fragment holds at least two begin markers but exactly one end marker: it
contains an unmatched inner begin marker and is not a balanced
environment. -/
theorem extract_nested_same_env_minimal (env : String) (A B rest : List Char)
    (henv : env ∈ envNames)
    (hfirst : ∀ i, i < (beginL env ++ A ++ beginL env ++ B).length →
      (endL env).isPrefixOf
        ((beginL env ++ A ++ beginL env ++ B).drop i ++ endL env ++ rest) = false) :
    extractTikzL (beginL env ++ A ++ beginL env ++ B ++ endL env ++ rest)
      = some (beginL env ++ A ++ beginL env ++ B ++ endL env)
  ∧ 2 ≤ countOccur (beginL env) (beginL env ++ A ++ beginL env ++ B ++ endL env)
  ∧ countOccur (endL env) (beginL env ++ A ++ beginL env ++ B ++ endL env) = 1
  ∧ countOccur (endL env) (beginL env ++ A ++ beginL env ++ B ++ endL env)
      < countOccur (beginL env) (beginL env ++ A ++ beginL env ++ B ++ endL env) := by
  have hbne := beginL_ne_nil env
  have hene := endL_ne_nil env
  have hXeq : beginL env ++ A ++ beginL env ++ B
      = beginL env ++ (A ++ beginL env ++ B) := by
    simp [List.append_assoc]
  have hM : ∀ j, j < (A ++ beginL env ++ B).length →
      (endL env).isPrefixOf
        ((A ++ beginL env ++ B).drop j ++ endL env ++ rest) = false := by
    intro j hj
    have hlen : (beginL env).length + j < (beginL env ++ A ++ beginL env ++ B).length := by
      rw [hXeq]
      simp only [List.length_append] at hj ⊢
      omega
    have := hfirst ((beginL env).length + j) hlen
    rw [hXeq, drop_append_len] at this
    exact this
  have hex : extractTikzL (beginL env ++ A ++ beginL env ++ B ++ endL env ++ rest)
      = some (beginL env ++ A ++ beginL env ++ B ++ endL env) := by
    have h := extract_at_anchor henv (A ++ beginL env ++ B) rest hM
    have e1 : beginL env ++ A ++ beginL env ++ B ++ endL env ++ rest
        = beginL env ++ (A ++ beginL env ++ B) ++ endL env ++ rest := by
      simp [List.append_assoc]
    have e2 : beginL env ++ A ++ beginL env ++ B ++ endL env
        = beginL env ++ (A ++ beginL env ++ B) ++ endL env := by
      simp [List.append_assoc]
    rw [e1, e2]
    exact h
  have hend : countOccur (endL env) (beginL env ++ A ++ beginL env ++ B ++ endL env) = 1 := by
    apply countOccur_eq_one hene
    intro i hi
    cases hc : (endL env).isPrefixOf
        ((beginL env ++ A ++ beginL env ++ B).drop i ++ endL env) with
    | false => rfl
    | true =>
      have hext := isPrefixOf_extend rest hc
      have hf := hfirst i hi
      rw [List.append_assoc] at hext
      rw [List.append_assoc] at hf
      rw [hext] at hf
      simp at hf
  have hbeg : 2 ≤ countOccur (beginL env) (beginL env ++ A ++ beginL env ++ B ++ endL env) := by
    have f1 : beginL env ++ A ++ beginL env ++ B ++ endL env
        = beginL env ++ (A ++ (beginL env ++ (B ++ endL env))) := by
      simp [List.append_assoc]
    have c1 := countOccur_self_append hbne (A ++ (beginL env ++ (B ++ endL env)))
    have c2 := countOccur_le_append (beginL env) A (beginL env ++ (B ++ endL env))
    have c3 := countOccur_self_append hbne (B ++ endL env)
    rw [f1]
    omega
  exact ⟨hex, hbeg, hend, by omega⟩

/-- Witness for claim C10: the claim's own example
`\begin{tikzpicture}A\begin{tikzpicture}B\end{tikzpicture}C\end{tikzpicture}`
is extracted as the minimal unbalanced span
`\begin{tikzpicture}A\begin{tikzpicture}B\end{tikzpicture}`. -/
theorem extract_nested_same_env_minimal_witness :
    extractTikzL (beginL "tikzpicture" ++ "A".data ++ beginL "tikzpicture" ++ "B".data
        ++ endL "tikzpicture" ++ ('C' :: endL "tikzpicture"))
      = some (beginL "tikzpicture" ++ "A".data ++ beginL "tikzpicture" ++ "B".data
        ++ endL "tikzpicture")
  ∧ 2 ≤ countOccur (beginL "tikzpicture")
      (beginL "tikzpicture" ++ "A".data ++ beginL "tikzpicture" ++ "B".data
        ++ endL "tikzpicture")
  ∧ countOccur (endL "tikzpicture")
      (beginL "tikzpicture" ++ "A".data ++ beginL "tikzpicture" ++ "B".data
        ++ endL "tikzpicture") = 1
  ∧ countOccur (endL "tikzpicture")
      (beginL "tikzpicture" ++ "A".data ++ beginL "tikzpicture" ++ "B".data
        ++ endL "tikzpicture")
      < countOccur (beginL "tikzpicture")
      (beginL "tikzpicture" ++ "A".data ++ beginL "tikzpicture" ++ "B".data
        ++ endL "tikzpicture") :=
  extract_nested_same_env_minimal "tikzpicture" "A".data "B".data
    ('C' :: endL "tikzpicture") (by decide) (by decide)

/-! ### Lemmas on the per-section image map -/

theorem assocGet_set_self (m : List (List Nat × Nat)) (k : List Nat) (v : Nat) :
    assocGet (assocSet m k v) k = some v := by
  induction m with
  | nil => simp [assocSet, assocGet]
  | cons p rest ih =>
    obtain ⟨kk, w⟩ := p
    by_cases hk : kk = k
    · simp [assocSet, assocGet, hk]
    · simp [assocSet, assocGet, hk, ih]

theorem assocGet_set_other (m : List (List Nat × Nat)) (k k' : List Nat) (v : Nat)
    (h : k ≠ k') : assocGet (assocSet m k v) k' = assocGet m k' := by
  induction m with
  | nil => simp [assocSet, assocGet, h]
  | cons p rest ih =>
    obtain ⟨kk, w⟩ := p
    by_cases hk : kk = k
    · subst hk
      simp [assocSet, assocGet, h]
    · simp [assocSet, assocGet, hk, ih]

/-- Claim C6: the numbering tracker, event by event.  A level-1 heading
sets the chapter counter to 1 when it is the first one, otherwise
increments it, and always empties the section counter and the whole
per-section image map.  A level-2 heading sets the section counter to 1
when it is the first since the last chapter reset, otherwise increments
it, leaves the chapter counter alone, and resets the image counter of the
new section key to 0 without touching other keys.  Headings of other
levels change nothing.  An image emission returns the current section's
counter incremented (an absent key reads as 0), so the sequence returned
restarts at 1 right after any level-2 heading and goes up by 1 on each
further emission in the same section. -/
theorem numbering_tracker_behavior (st : FilterState) (c s lvl : Nat) :
    (st.level1Number = [] →
      onHeader 1 st
        = { st with level1Number := [1], level2Number := [], imageNumPerLevel2 := [] })
  ∧ (st.level1Number = [c] →
      onHeader 1 st
        = { st with level1Number := [c + 1], level2Number := [], imageNumPerLevel2 := [] })
  ∧ (st.level2Number = [] → (onHeader 2 st).level2Number = [1])
  ∧ (st.level2Number = [s] → (onHeader 2 st).level2Number = [s + 1])
  ∧ ((onHeader 2 st).level1Number = st.level1Number)
  ∧ (assocGet (onHeader 2 st).imageNumPerLevel2 (onHeader 2 st).level2Number = some 0)
  ∧ (∀ k, k ≠ incrLast st.level2Number →
      assocGet (onHeader 2 st).imageNumPerLevel2 k = assocGet st.imageNumPerLevel2 k)
  ∧ (lvl ≠ 1 → lvl ≠ 2 → onHeader lvl st = st)
  ∧ (assocGet st.imageNumPerLevel2 st.level2Number = none → (onImageEmission st).2 = 1)
  ∧ (∀ n, assocGet st.imageNumPerLevel2 st.level2Number = some n →
      (onImageEmission st).2 = n + 1)
  ∧ ((onImageEmission (onHeader 2 st)).2 = 1)
  ∧ ((onImageEmission (onImageEmission st).1).2 = (onImageEmission st).2 + 1) := by
  refine ⟨?_, ?_, ?_, ?_, ?_, ?_, ?_, ?_, ?_, ?_, ?_, ?_⟩
  · intro h
    simp [onHeader, h, incrLast]
  · intro h
    simp [onHeader, h, incrLast]
  · intro h
    simp [onHeader, h, incrLast]
  · intro h
    simp [onHeader, h, incrLast]
  · simp [onHeader]
  · simp [onHeader, assocGet_set_self]
  · intro k hk
    simp [onHeader, assocGet_set_other _ _ _ _ (fun h => hk h.symm)]
  · intro h1 h2
    simp [onHeader, h1, h2]
  · intro h
    simp [onImageEmission, h, assocGet_set_self]
  · intro n h
    simp [onImageEmission, h]
  · simp [onHeader, onImageEmission, assocGet_set_self]
  · cases hget : assocGet st.imageNumPerLevel2 st.level2Number with
    | none =>
      simp [onImageEmission, hget, assocGet_set_self]
    | some n =>
      simp [onImageEmission, hget, assocGet_set_self]

/-- Witness for claim C6: the tracker facts instantiated in the middle of
a document (chapter 2, section 3, five images emitted in the current
section): the next chapter heading moves the chapter counter to 3 and
clears the maps, the next section heading moves the section counter to 4,
the first image after it is numbered 1, a level-3 heading changes
nothing, and two further emissions in place number 6 and 7. -/
theorem numbering_tracker_behavior_witness :
    onHeader 1 stW
      = { stW with level1Number := [3], level2Number := [], imageNumPerLevel2 := [] }
  ∧ (onHeader 2 stW).level2Number = [4]
  ∧ onHeader 3 stW = stW
  ∧ (onImageEmission (onHeader 2 stW)).2 = 1
  ∧ (onImageEmission stW).2 = 6
  ∧ (onImageEmission (onImageEmission stW).1).2 = (onImageEmission stW).2 + 1 :=
  ⟨(numbering_tracker_behavior stW 2 3 3).2.1 rfl,
   (numbering_tracker_behavior stW 2 3 3).2.2.2.1 rfl,
   (numbering_tracker_behavior stW 2 3 3).2.2.2.2.2.2.2.1 (by decide) (by decide),
   (numbering_tracker_behavior stW 2 3 3).2.2.2.2.2.2.2.2.2.2.1,
   (numbering_tracker_behavior stW 2 3 3).2.2.2.2.2.2.2.2.2.1 5 rfl,
   (numbering_tracker_behavior stW 2 3 3).2.2.2.2.2.2.2.2.2.2.2⟩

/-! ### Lemmas on the render cache -/

theorem mem_files_compile {x : String} {st : FilterState} (renderOk : String → Bool)
    (code p sty : String) (h : x ∈ st.files) :
    x ∈ (compile_tikz_to_svg renderOk code p sty st).1.files := by
  rw [compile_tikz_to_svg]
  split
  · simp [h]
  · simpa using h

theorem self_mem_files_compile {renderOk : String → Bool} {code sty : String}
    (p : String) (st : FilterState) (hok : renderOk (docTemplate sty code) = true) :
    p ∈ (compile_tikz_to_svg renderOk code p sty st).1.files := by
  simp [compile_tikz_to_svg, hok]

theorem ensureRendered_mem {renderOk : String → Bool} {code : String} (base : String)
    (st : FilterState)
    (hb : renderOk (docTemplate STYLE_BLACK code) = true)
    (hw : renderOk (docTemplate STYLE_WHITE code) = true) :
    (targetPaths base).1 ∈ (ensureRendered renderOk code base st).1.files
  ∧ (targetPaths base).2 ∈ (ensureRendered renderOk code base st).1.files := by
  rw [ensureRendered]
  simp only
  by_cases h1 : (targetPaths base).1 ∈ st.files
  · by_cases h2 : (targetPaths base).2 ∈ st.files
    · simp [h1, h2]
    · simp only [h1, if_true, h2, if_false]
      exact ⟨mem_files_compile renderOk code _ _ h1,
        self_mem_files_compile _ st hw⟩
  · have hbmem : (targetPaths base).1
        ∈ (compile_tikz_to_svg renderOk code (targetPaths base).1 STYLE_BLACK st).1.files :=
      self_mem_files_compile _ st hb
    simp only [h1, if_false]
    by_cases h2 : (targetPaths base).2
        ∈ (compile_tikz_to_svg renderOk code (targetPaths base).1 STYLE_BLACK st).1.files
    · simp only [h2, if_true]
      exact ⟨hbmem, by simpa using h2⟩
    · simp only [h2, if_false]
      exact ⟨mem_files_compile renderOk code _ _ hbmem,
        self_mem_files_compile _ _ hw⟩

theorem ensureRendered_noop (renderOk : String → Bool) (code : String) {base : String}
    {st : FilterState}
    (h1 : (targetPaths base).1 ∈ st.files) (h2 : (targetPaths base).2 ∈ st.files) :
    ensureRendered renderOk code base st = (st, (targetPaths base).1, (targetPaths base).2) := by
  simp [ensureRendered, h1, h2]

theorem ensureRendered_paths (renderOk : String → Bool) (code base : String)
    (st : FilterState) :
    (ensureRendered renderOk code base st).2 = ((targetPaths base).1, (targetPaths base).2) := by
  rw [ensureRendered]

/-- Claim C9 (amended): when both theme renders of a source succeed, a
second call of the render-cache operation with the same source and base
filename returns the same two target paths and changes nothing — the
existence check short-circuits, so the external toolchain is not invoked
again.  (The unamended claim fails when the first call's renders fail: no
file is left behind, so a second call invokes the toolchain again — see
the counterexample.) -/
theorem ensure_rendered_cache_hit (renderOk : String → Bool) (code base : String)
    (st : FilterState)
    (hb : renderOk (docTemplate STYLE_BLACK code) = true)
    (hw : renderOk (docTemplate STYLE_WHITE code) = true) :
    (ensureRendered renderOk code base (ensureRendered renderOk code base st).1).1
        = (ensureRendered renderOk code base st).1
  ∧ (ensureRendered renderOk code base (ensureRendered renderOk code base st).1).2
        = (ensureRendered renderOk code base st).2 := by
  have hm := ensureRendered_mem base st hb hw
  have hno := ensureRendered_noop renderOk code hm.1 hm.2
  constructor
  · rw [hno]
  · rw [hno, ensureRendered_paths]

/-- Witness for claim C9 (amended): with an always-succeeding toolchain,
the second call is the identity on the state and returns the same paths. -/
theorem ensure_rendered_cache_hit_witness :
    (ensureRendered okAll "c" "b" (ensureRendered okAll "c" "b" prepare).1).1
        = (ensureRendered okAll "c" "b" prepare).1
  ∧ (ensureRendered okAll "c" "b" (ensureRendered okAll "c" "b" prepare).1).2
        = (ensureRendered okAll "c" "b" prepare).2 :=
  ensure_rendered_cache_hit okAll "c" "b" prepare rfl rfl

/-- Counterexample to claim C9 as stated: when the renders fail (the
external compiler exits non-zero), the first call leaves no file behind,
so the second call does NOT short-circuit: it performs two more external
invocations (4 in total, not 2).  The returned paths are nevertheless the
same both times. -/
theorem ensure_rendered_retry_cex :
    (ensureRendered okNone "code" "base" prepare).1.invocations = 2
  ∧ (ensureRendered okNone "code" "base"
      (ensureRendered okNone "code" "base" prepare).1).1.invocations = 4
  ∧ (ensureRendered okNone "code" "base"
      (ensureRendered okNone "code" "base" prepare).1).2
      = (ensureRendered okNone "code" "base" prepare).2 :=
  ⟨rfl, rfl, rfl⟩

/-- Claim C1 (the code bug): a figure node and a centering wrapper whose
diagram source is extracted but whose every render fails (the oracle
`okNone` makes the external compiler exit non-zero for both themes): the
boolean results of `compile_tikz_to_svg` are discarded by both call sites,
so the rewriter still emits the replacement block referencing the two
target image files — which were never created (`files = []` after the two
failed invocations) — instead of returning the original node unchanged. -/
theorem render_failure_still_replaces :
    ((tikz_filter okNone sha1c figC1 prepare).1.files = []
      ∧ (tikz_filter okNone sha1c figC1 prepare).1.invocations = 2
      ∧ (tikz_filter okNone sha1c figC1 prepare).2
          = [.rawBlock (mystFigureStr "fig:broken" "Broken"
              "media/0_0_1_HASH_black.svg" "media/0_0_1_HASH_white.svg") "markdown"]
      ∧ (tikz_filter okNone sha1c figC1 prepare).2 ≠ [figC1])
  ∧ ((tikz_filter okNone sha1c divC1 prepare).1.files = []
      ∧ (tikz_filter okNone sha1c divC1 prepare).1.invocations = 2
      ∧ (tikz_filter okNone sha1c divC1 prepare).2
          = [.rawBlock (mdCenterStr "media/0_0_1_HASH_black.svg"
              "media/0_0_1_HASH_white.svg") "markdown"]
      ∧ (tikz_filter okNone sha1c divC1 prepare).2 ≠ [divC1]) := by
  have e1 : (tikz_filter okNone sha1c figC1 prepare).2
      = [.rawBlock (mystFigureStr "fig:broken" "Broken"
          "media/0_0_1_HASH_black.svg" "media/0_0_1_HASH_white.svg") "markdown"] := rfl
  have e2 : (tikz_filter okNone sha1c divC1 prepare).2
      = [.rawBlock (mdCenterStr "media/0_0_1_HASH_black.svg"
          "media/0_0_1_HASH_white.svg") "markdown"] := rfl
  refine ⟨⟨rfl, rfl, e1, ?_⟩, rfl, rfl, e2, ?_⟩
  · rw [e1]
    intro h
    injection h with h1 h2
    exact Block.noConfusion h1
  · rw [e2]
    intro h
    injection h with h1 h2
    exact Block.noConfusion h1

/-- Counterexample to claim C2: a bare raw-markup node (not inside a
figure or centering wrapper) whose format is LaTeX and whose text contains
a complete diagram environment is NOT extracted, numbered, rendered or
replaced: `tikz_filter` has no branch for bare raw blocks and returns the
node unchanged, performing no external invocation. -/
theorem bare_raw_block_unchanged_cex :
    tikz_filter okAll sha1c rawC2 prepare = (prepare, [rawC2])
  ∧ containsAnyKeyword tikzSample = true
  ∧ extract_tikz tikzSample = some tikzSample
  ∧ (tikz_filter okAll sha1c rawC2 prepare).1.invocations = 0 :=
  ⟨rfl, rfl, rfl, rfl⟩

/-- Claim C2 (amended): every raw-markup node outside a figure or
centering wrapper is returned unchanged with untouched state, whatever its
format and text: only the header, figure and centering-div shapes are
rewritten. -/
theorem bare_raw_block_unchanged (renderOk : String → Bool) (sha1 : String → String)
    (t f : String) (st : FilterState) :
    tikz_filter renderOk sha1 (.rawBlock t f) st = (st, [.rawBlock t f]) := rfl

/-- Counterexample to claim C3: a centering wrapper holding one
non-diagram paragraph and one diagram raw-block is rewritten into a
single markdown raw block holding the two theme blocks — the paragraph is
NOT preserved: it is absent from the output. -/
theorem center_sibling_dropped_cex :
    (tikz_filter okAll sha1c divC3 prepare).2
      = [.rawBlock (mdCenterStr "media/0_0_1_HASH_black.svg"
          "media/0_0_1_HASH_white.svg") "markdown"]
  ∧ Block.para "Intro text" ∉ (tikz_filter okAll sha1c divC3 prepare).2
  ∧ (tikz_filter okAll sha1c divC3 prepare).2.length = 1 := by
  have e : (tikz_filter okAll sha1c divC3 prepare).2
      = [.rawBlock (mdCenterStr "media/0_0_1_HASH_black.svg"
          "media/0_0_1_HASH_white.svg") "markdown"] := rfl
  refine ⟨e, ?_, rfl⟩
  rw [e]
  intro h
  exact Block.noConfusion (List.mem_singleton.mp h)

/-- Claim C3 (amended): a centering wrapper holding one non-diagram
paragraph and one diagram raw-block is replaced, wrapper and all, by the
single markdown raw block holding the two theme blocks; the wrapper is
absent from the output — but so is every other child of the wrapper: the
non-diagram paragraph is dropped, not preserved. -/
theorem center_wrapper_fully_replaced (renderOk : String → Bool) (sha1 : String → String)
    (p t f code : String) (st : FilterState)
    (hk : containsAnyKeyword t = true) (hx : extract_tikz t = some code) :
    (tikz_filter renderOk sha1 (.div ["center"] [.para p, .rawBlock t f]) st
      = ((renderPipeline renderOk sha1 code st).1,
         [.rawBlock (mdCenterStr (renderPipeline renderOk sha1 code st).2.1
            (renderPipeline renderOk sha1 code st).2.2) "markdown"]))
  ∧ (∀ q, Block.para q
      ∉ (tikz_filter renderOk sha1 (.div ["center"] [.para p, .rawBlock t f]) st).2)
  ∧ (∀ cls cnt, Block.div cls cnt
      ∉ (tikz_filter renderOk sha1 (.div ["center"] [.para p, .rawBlock t f]) st).2) := by
  rcases hrp : renderPipeline renderOk sha1 code st with ⟨st2, bl, wh⟩
  have heq : tikz_filter renderOk sha1 (.div ["center"] [.para p, .rawBlock t f]) st
      = (st2, [.rawBlock (mdCenterStr bl wh) "markdown"]) := by
    simp only [tikz_filter, centerLoop, hk, hx, hrp]
    simp
  refine ⟨?_, ?_, ?_⟩
  · rw [heq]
  · intro q h
    rw [heq] at h
    exact Block.noConfusion (List.mem_singleton.mp h)
  · intro cls cnt h
    rw [heq] at h
    exact Block.noConfusion (List.mem_singleton.mp h)

/-- Witness for claim C3 (amended): the concrete wrapper from the
counterexample input, rewritten into exactly the single markdown raw
block. -/
theorem center_wrapper_fully_replaced_witness :
    tikz_filter okAll sha1c (.div ["center"] [.para "Intro text", .rawBlock tikzSample "latex"])
        prepare
      = ((renderPipeline okAll sha1c tikzSample prepare).1,
         [.rawBlock (mdCenterStr (renderPipeline okAll sha1c tikzSample prepare).2.1
            (renderPipeline okAll sha1c tikzSample prepare).2.2) "markdown"]) :=
  (center_wrapper_fully_replaced okAll sha1c "Intro text" tikzSample "latex" tikzSample
    prepare (by decide) (by decide)).1

/-- Counterexample to claim C4: the same diagram source occurring twice
(two identical figures) produces TWO pairs of image files, under the two
different base filenames `0_0_1_HASH` and `0_0_2_HASH` (the per-section
image sequence number differs), with four external invocations — a later
occurrence of identical source does produce a second pair under a
different base filename. -/
theorem duplicate_source_second_pair_cex :
    (run_filter okAll sha1c [figC4, figC4] prepare).1.files
      = ["media/0_0_1_HASH_black.svg", "media/0_0_1_HASH_white.svg",
         "media/0_0_2_HASH_black.svg", "media/0_0_2_HASH_white.svg"]
  ∧ (run_filter okAll sha1c [figC4, figC4] prepare).1.invocations = 4 :=
  ⟨rfl, rfl⟩

/-- Claim C4 (amended): one diagram source maps to one rendered pair only
per (source, numbering-context): a later occurrence of identical source
text in the same run receives an incremented sequence number and hence a
second pair of files under a different base filename (four distinct files
for two identical figures); the content-addressed reuse only applies when
the full base filename coincides — re-running the whole pass over the same
document performs no external invocation and adds no file. -/
theorem duplicate_source_per_context_pairs :
    (run_filter okAll sha1c [figC4, figC4] prepare).1.files.length = 4
  ∧ (run_filter okAll sha1c [figC4, figC4] prepare).1.files.Nodup
  ∧ (run_filter okAll sha1c [figC4, figC4] rerunState).1.invocations = 0
  ∧ (run_filter okAll sha1c [figC4, figC4] rerunState).1.files = rerunState.files :=
  ⟨rfl, by decide, rfl, rfl⟩

/-- Counterexample to claim C5: a centering wrapper that already contains
a previously emitted theme-toggle block (recognizable by the helper
`is_tikz_darklight_raw`, which the filter never calls) is NOT split: the
wrapper is returned unchanged, still wrapping the theme block. -/
theorem processed_wrapper_not_split_cex :
    is_tikz_darklight_raw prevBlock = true
  ∧ tikz_filter okAll sha1c divC5 prepare = (prepare, [divC5]) :=
  ⟨rfl, rfl⟩

theorem centerLoop_unchanged (renderOk : String → Bool) (sha1 : String → String)
    (orig : Block) :
    ∀ (children : List Block) (st : FilterState),
      children.all (fun c => !blockHasKeyword c) = true →
      centerLoop renderOk sha1 orig children st = (st, [orig]) := by
  intro children
  induction children with
  | nil => intro st _; rfl
  | cons c rest ih =>
    intro st h
    simp only [List.all_cons, Bool.and_eq_true, Bool.not_eq_true'] at h
    cases c with
    | rawBlock t f =>
      have hk : containsAnyKeyword t = false := by
        simpa [blockHasKeyword] using h.1
      rw [centerLoop, hk]
      simp only [Bool.false_eq_true, if_false]
      exact ih st (by simpa using h.2)
    | header lvl =>
      rw [centerLoop]
      · exact ih st (by simpa using h.2)
      · intro t f htf; exact Block.noConfusion htf
    | figure idt cap cnt =>
      rw [centerLoop]
      · exact ih st (by simpa using h.2)
      · intro t f htf; exact Block.noConfusion htf
    | div cls cnt =>
      rw [centerLoop]
      · exact ih st (by simpa using h.2)
      · intro t f htf; exact Block.noConfusion htf
    | para q =>
      rw [centerLoop]
      · exact ih st (by simpa using h.2)
      · intro t f htf; exact Block.noConfusion htf

/-- Claim C5 (amended): the recognizer for previously emitted theme-toggle
blocks (`is_tikz_darklight_raw`) exists in the source but is never
invoked; no splitting rule is implemented.  A centering wrapper none of
whose children contain a diagram keyword — in particular one whose
children are previously emitted theme-toggle blocks, whose markup contains
no diagram environment — is returned unchanged: the already-processed
blocks are neither re-wrapped into new output nor duplicated (re-running
the pass is safe in that sense), but they are also NOT split out of the
wrapper. -/
theorem center_without_diagram_unchanged (renderOk : String → Bool)
    (sha1 : String → String) (classes : List String) (children : List Block)
    (st : FilterState)
    (h : children.all (fun c => !blockHasKeyword c) = true) :
    tikz_filter renderOk sha1 (.div classes children) st
      = (st, [.div classes children]) := by
  rw [tikz_filter]
  by_cases hc : "center" ∈ classes
  · rw [if_pos hc]
    exact centerLoop_unchanged renderOk sha1 _ children st h
  · rw [if_neg hc]

/-- Witness for claim C5 (amended): the wrapper already holding a
previously emitted theme-toggle block is returned unchanged. -/
theorem center_without_diagram_unchanged_witness :
    tikz_filter okAll sha1c (.div ["center"] [prevBlock]) prepare
      = (prepare, [.div ["center"] [prevBlock]]) :=
  center_without_diagram_unchanged okAll sha1c ["center"] [prevBlock] prepare (by decide)

/-- Counterexample to claim C7: the render cache computes target paths
with the literal extension `svg` — there is no output-format branch in the
path computation at all — so for a PDF-based output format the computed
paths do not carry the extension `pdf` the claim requires
(`extensionPerSpec` spells out the claimed extension selection). -/
theorem pdf_extension_cex :
    targetPaths "0_0_1_HASH"
      = ("media/0_0_1_HASH_black.svg", "media/0_0_1_HASH_white.svg")
  ∧ extensionPerSpec true = "pdf"
  ∧ (targetPaths "0_0_1_HASH").1 ≠ "media/0_0_1_HASH_black." ++ extensionPerSpec true
  ∧ (targetPaths "0_0_1_HASH").2 ≠ "media/0_0_1_HASH_white." ++ extensionPerSpec true :=
  ⟨rfl, rfl, by decide, by decide⟩

/-- Claim C7 (amended): the render cache computes target paths with
extension `svg` for every document, regardless of the output format — the
paths agree with the spec's non-PDF branch for every base filename. -/
theorem svg_extension_always (base : String) :
    targetPaths base
      = (MEDIA_PATH ++ "/" ++ base ++ "_black." ++ extensionPerSpec false,
         MEDIA_PATH ++ "/" ++ base ++ "_white." ++ extensionPerSpec false)
  ∧ extensionPerSpec false = "svg" := by
  constructor
  · have h1 : MEDIA_PATH ++ "/" ++ base ++ "_black." ++ extensionPerSpec false
        = MEDIA_PATH ++ "/" ++ base ++ ("_black." ++ extensionPerSpec false) :=
      string_append_assoc _ _ _
    have h2 : MEDIA_PATH ++ "/" ++ base ++ "_white." ++ extensionPerSpec false
        = MEDIA_PATH ++ "/" ++ base ++ ("_white." ++ extensionPerSpec false) :=
      string_append_assoc _ _ _
    rw [targetPaths, h1, h2]
    rfl
  · rfl

end TikzFilter
